import Mathlib

/-!
Verification of the oie-mvp market-signal platform core.

This file shallowly embeds the analytic and execution kernels of the
repository in Lean 4 and proves (or refutes) the specification claims about
them.  Python floats are idealised as exact arithmetic: `ℚ` where the code
only adds, multiplies, divides and compares, `ℝ` where it takes square roots
(topology and predictive engines).  Stateful methods become pure functions
on explicit state, with broker responses supplied as an oracle value, and
Monte-Carlo draws from `random.gauss` supplied as an explicit stream.
-/

namespace OIE

/-- `backend/data/models.py` `Bar`.  The `open` and `atr` fields are unused by
every computation modelled here and are omitted.  Timestamps are irrelevant to
the verified properties and omitted as well. -/
structure Bar where
  high : ℚ
  low : ℚ
  close : ℚ
  volume : ℚ
  buy_volume : Option ℚ := none
  sell_volume : Option ℚ := none
  delta : Option ℚ := none
deriving DecidableEq, Repr

/-! ## Signals engine (`backend/signals/engine.py`) -/

/-- `backend/signals/models.py` `Signal`.  The `symbol`, `timestamp` and
`description` fields are presentational and omitted; `type` keeps the
source's string values. -/
structure Signal where
  type : String
  confidence : ℚ
  breakout_probability : ℚ
  IFI : ℚ
  energy_collapse_risk : ℚ
deriving DecidableEq, Repr

/-- The fields of `PredictiveSnapshot` that `SignalsEngine.compute` reads. -/
structure PredIn where
  IFI : ℚ
  breakout_probability_up : ℚ
  breakout_probability_down : ℚ
  energy_collapse_risk : ℚ
deriving DecidableEq, Repr

/-- Constructor parameters of `SignalsEngine` with the source defaults. -/
structure SignalsEngine where
  breakout_threshold_long : ℚ := mkRat 3 5
  breakout_threshold_short : ℚ := mkRat 13 20
  delta_lookback : Nat := 10
  delta_threshold : ℚ := mkRat 3 5
  min_delta_strength : ℚ := mkRat 3 10
  block_contratrend : Bool := true
deriving DecidableEq, Repr

/-- Per-symbol mutable state of `SignalsEngine` (`_last_IFI[symbol]` and
`_bars_history[symbol]`), for one fixed symbol. -/
structure SignalsState where
  last_IFI : Option ℚ := none
  bars_history : List Bar := []
deriving DecidableEq, Repr

/-- `SignalsEngine.update_bars`: the per-symbol deque is cleared and refilled
with the last `delta_lookback` bars (`bars[-self.delta_lookback:]`). -/
def SignalsEngine.update_bars (e : SignalsEngine) (bars : List Bar) : List Bar :=
  bars.drop (bars.length - e.delta_lookback)

/-- Cumulative delta of `_compute_delta_trend`: per bar, `delta` if present,
else `buy_volume - sell_volume` if both present, else no contribution. -/
def barDeltaContribution (b : Bar) : ℚ :=
  match b.delta with
  | some d => d
  | none =>
    match b.buy_volume, b.sell_volume with
    | some bv, some sv => bv - sv
    | _, _ => 0

/-- Total volume of `_compute_delta_trend`: `if bar.volume:` adds the bar's
volume when it is non-zero (Python truthiness on a float). -/
def totalVolume (bars : List Bar) : ℚ :=
  bars.foldl (fun acc b => if b.volume ≠ 0 then acc + b.volume else acc) 0

/-- `SignalsEngine._compute_delta_trend`, returning the
`(trend_direction, trend_strength)` pair. -/
def SignalsEngine.compute_delta_trend (e : SignalsEngine) (hist : List Bar) :
    String × ℚ :=
  if hist.length < 3 then ("NEUTRAL", 0)
  else
    let cumulative_delta := hist.foldl (fun acc b => acc + barDeltaContribution b) 0
    let total_volume := totalVolume hist
    if total_volume = 0 then ("NEUTRAL", 0)
    else
      let delta_bias := |cumulative_delta| / total_volume
      let trend_strength := min 1 (delta_bias / e.delta_threshold)
      if cumulative_delta > 0 ∧ delta_bias > mkRat 1 10 then ("BULLISH", trend_strength)
      else if cumulative_delta < 0 ∧ delta_bias > mkRat 1 10 then ("BEARISH", trend_strength)
      else ("NEUTRAL", trend_strength)

/-- The LONG `if/elif` chain of `SignalsEngine.compute` (lines 109-145):
either a single `predictive_breakout_long` signal or nothing. -/
def longChain (e : SignalsEngine) (trend : String) (strength : ℚ)
    (IFI_rising : Bool) (IFI bp_up ecr : ℚ) : List Signal :=
  if e.block_contratrend ∧ trend = "BEARISH" ∧ strength ≥ mkRat 1 2 then []
  else if bp_up ≥ e.breakout_threshold_long ∧ IFI_rising then
    if trend ≠ "NEUTRAL" ∧ strength < e.min_delta_strength then []
    else
      let base_confidence := mkRat 1 2 + (bp_up - e.breakout_threshold_long)
      let confidence :=
        if trend = "BULLISH" then min 1 (base_confidence + strength * (mkRat 1 4))
        else if trend = "BEARISH" then max 0 (base_confidence - strength * (mkRat 1 2))
        else base_confidence
      [{ type := "predictive_breakout_long", confidence := confidence,
         breakout_probability := bp_up, IFI := IFI,
         energy_collapse_risk := ecr }]
  else []

/-- The SHORT `if/elif/else` chain of `SignalsEngine.compute` (lines 148-202):
the final `else` is the only place a `flow_neutral_watch` signal is created. -/
def shortChain (e : SignalsEngine) (trend : String) (strength : ℚ)
    (IFI_rising : Bool) (IFI bp_up bp_down ecr : ℚ) : List Signal :=
  if e.block_contratrend ∧ trend = "BULLISH" ∧ strength ≥ mkRat 1 2 then []
  else if bp_down ≥ e.breakout_threshold_short ∧ IFI_rising then
    if trend ≠ "NEUTRAL" ∧ strength < e.min_delta_strength then []
    else
      let base_confidence := mkRat 1 2 + (bp_down - e.breakout_threshold_short)
      let confidence :=
        if trend = "BEARISH" then min 1 (base_confidence + strength * (mkRat 1 4))
        else if trend = "BULLISH" then max 0 (base_confidence - strength * (mkRat 1 2))
        else base_confidence
      [{ type := "predictive_breakout_short", confidence := confidence,
         breakout_probability := bp_down, IFI := IFI,
         energy_collapse_risk := ecr }]
  else
    let max_bp := max bp_up bp_down
    let confidence := max 0 (min 1 (1 - max_bp))
    [{ type := "flow_neutral_watch", confidence := confidence,
       breakout_probability := max_bp, IFI := IFI,
       energy_collapse_risk := ecr }]

/-- Bar history used by a `compute` call: updated when a non-empty `bars`
argument is given (Python truthiness of the list), kept otherwise. -/
def SignalsEngine.histAfter (e : SignalsEngine) (st : SignalsState)
    (bars : Option (List Bar)) : List Bar :=
  match bars with
  | some bs => if bs.isEmpty then st.bars_history else e.update_bars bs
  | none => st.bars_history

/-- `IFI_rising = last_IFI is not None and IFI > last_IFI`. -/
def ifiRising (st : SignalsState) (IFI : ℚ) : Bool :=
  match st.last_IFI with
  | some last => decide (IFI > last)
  | none => false

/-- `SignalsEngine.compute` for one symbol: update the bar history, read and
record the IFI, compute the delta trend, then run the LONG chain followed by
the SHORT/NEUTRAL chain.  Returns the emitted signals and the new state. -/
def SignalsEngine.compute (e : SignalsEngine) (st : SignalsState)
    (predictive : PredIn) (bars : Option (List Bar)) :
    List Signal × SignalsState :=
  let hist := e.histAfter st bars
  let IFI := predictive.IFI
  let bp_up := predictive.breakout_probability_up
  let bp_down := predictive.breakout_probability_down
  let ecr := predictive.energy_collapse_risk
  let IFI_rising := ifiRising st IFI
  let td := e.compute_delta_trend hist
  let signals :=
    longChain e td.1 td.2 IFI_rising IFI bp_up ecr ++
      shortChain e td.1 td.2 IFI_rising IFI bp_up bp_down ecr
  (signals, { last_IFI := some IFI, bars_history := hist })

/-- A signal is the LONG signal of the engine. -/
def Signal.isLong (s : Signal) : Prop := s.type = "predictive_breakout_long"

/-- A signal is the SHORT signal of the engine. -/
def Signal.isShort (s : Signal) : Prop := s.type = "predictive_breakout_short"

/-- A signal is the NEUTRAL (`flow_neutral_watch`) signal of the engine. -/
def Signal.isNeutral (s : Signal) : Prop := s.type = "flow_neutral_watch"

instance (s : Signal) : Decidable s.isLong := by unfold Signal.isLong; infer_instance
instance (s : Signal) : Decidable s.isShort := by unfold Signal.isShort; infer_instance
instance (s : Signal) : Decidable s.isNeutral := by unfold Signal.isNeutral; infer_instance

/-- The spec sentence of claim C2, instantiated at one `compute` call: a
NEUTRAL signal with confidence `1 - max(bp_up, bp_down)` is emitted exactly
when neither a LONG nor a SHORT signal is emitted. -/
def neutralExactlyWhenNoDirectional (e : SignalsEngine) (st : SignalsState)
    (p : PredIn) (bars : Option (List Bar)) : Prop :=
  let out := (e.compute st p bars).1
  (∃ s ∈ out, s.isNeutral ∧
      s.confidence = 1 - max p.breakout_probability_up p.breakout_probability_down) ↔
    (¬ ∃ s ∈ out, s.isLong) ∧ (¬ ∃ s ∈ out, s.isShort)

/-- The spec sentence of claim C3, instantiated at one `compute` call: when
both the LONG conditions and the SHORT conditions hold, only the LONG signal
is emitted. -/
def longTakesPrecedence (e : SignalsEngine) (st : SignalsState)
    (p : PredIn) (bars : Option (List Bar)) : Prop :=
  let out := (e.compute st p bars).1
  let td := e.compute_delta_trend (e.histAfter st bars)
  let rising := ifiRising st p.IFI
  (p.breakout_probability_up ≥ e.breakout_threshold_long ∧ rising = true ∧
      ¬(e.block_contratrend ∧ td.1 = "BEARISH" ∧ td.2 ≥ mkRat 1 2) ∧
      ¬(td.1 ≠ "NEUTRAL" ∧ td.2 < e.min_delta_strength) ∧
      p.breakout_probability_down ≥ e.breakout_threshold_short ∧
      ¬(e.block_contratrend ∧ td.1 = "BULLISH" ∧ td.2 ≥ mkRat 1 2)) →
    (∃ s ∈ out, s.isLong) ∧ ¬ ∃ s ∈ out, s.isShort

/-- A flat bar with zero delta: delta trend stays NEUTRAL with strength 0. -/
def flatBar : Bar := { high := 1, low := 1, close := 1, volume := 1, delta := some 0 }

/-- State with a previous IFI of 10 and an empty bar history (so the delta
trend is NEUTRAL with strength 0 and nothing is contra-blocked). -/
def stateWithRisingContext : SignalsState :=
  { last_IFI := some 10, bars_history := [] }

/-- Predictive input for the C2 counterexample: `bp_up = 0.7`, `bp_down = 0.1`,
IFI risen from 10 to 11. -/
def predLongOnly : PredIn :=
  { IFI := 11, breakout_probability_up := mkRat 7 10, breakout_probability_down := mkRat 1 10,
    energy_collapse_risk := 0 }

/-- Predictive input for the C3 counterexample: `bp_up = bp_down = 0.7`, IFI
risen from 10 to 11. -/
def predBothDirections : PredIn :=
  { IFI := 11, breakout_probability_up := mkRat 7 10, breakout_probability_down := mkRat 7 10,
    energy_collapse_risk := 0 }

/-- The module-level `engine = SignalsEngine()` singleton. -/
def defaultEngine : SignalsEngine := {}

/-- Fresh per-symbol state: no previous IFI, empty history. -/
def freshState : SignalsState := {}

/-! End of the signal-engine data model.  Further definitions (execution
manager, broker rounding, event loggers, topology and predictive engines)
follow; all theorems come after the definitions. -/

/-! ## Execution manager (`backend/trading/paper_trading.py`) -/

/-- `TradingConfig` numeric risk fields used by the modelled methods, with
the source defaults.  Percentages keep the source's percent scale. -/
structure TradingConfig where
  max_position_value : ℚ := 1000
  risk_per_trade : ℚ := mkRat 1 100
  stop_loss_pct : ℚ := 1
  take_profit_pct : ℚ := 1
  min_confidence : ℚ := mkRat 62 100
deriving DecidableEq, Repr

/-- `TradeLog` fields read by `check_position_status`. -/
structure TradeLog where
  direction : String
  entry_price : ℚ
  quantity : ℚ
  stop_loss : ℚ
  take_profit : ℚ
deriving DecidableEq, Repr

/-- Broker `Position` as returned by `get_position`. -/
structure Position where
  side : String
  entry_price : ℚ
  quantity : ℚ
deriving DecidableEq, Repr

/-- The broker responses consumed by one `check_position_status` call:
`get_position`, `get_price`, `get_open_orders` (its length), and the
`close_position` outcome (`result.success`, `result.price`). -/
structure BrokerView where
  position : Option Position
  current_price : ℚ
  open_orders : Nat
  close_success : Bool
  close_price : ℚ
deriving DecidableEq, Repr

/-- Manager state mutated by `check_position_status`. -/
structure ManagerState where
  current_trade : Option TradeLog
  total_trades : Nat := 0
  winning_trades : Nat := 0
  total_pnl : ℚ := 0
deriving DecidableEq, Repr

/-- Side effects of the manager: persisted close events and order cancels. -/
inductive TradeAction
  | cancelAllOrders
  | closeEvent (action : String) (reason : String) (exit_price : ℚ) (pnl : ℚ)
deriving DecidableEq, Repr

/-- Realised pnl in quote units, by trade direction. -/
def tradePnl (direction : String) (entry exitP qty : ℚ) : ℚ :=
  if direction = "LONG" then (exitP - entry) * qty else (entry - exitP) * qty

/-- The `pnl_pct` recomputed by `check_position_status` while the position is
still open. -/
def pnlPct (direction : String) (entry current : ℚ) : ℚ :=
  if direction = "LONG" then (current - entry) / entry * 100
  else (entry - current) / entry * 100

/-- Python's `needle in haystack` on strings. -/
def strContains (needle hay : String) : Bool :=
  (List.range (hay.length + 1)).any fun i => needle.toList.isPrefixOf (hay.toList.drop i)

/-- The `TradeEvent.action` chosen by `_close_position_with_reason` from the
close reason, by substring tests. -/
def actionFor (reason : String) : String :=
  if strContains "take_profit" reason then "TAKE_PROFIT"
  else if strContains "stop_loss" reason then "STOP_LOSS"
  else "CLOSE"

/-- `_close_position_with_reason(reason, exit_price)` on trade `t`: when the
broker close succeeds, resolve the exit price (`result.price` if truthy, else
the passed price), compute the pnl, update counters, emit a close event,
cancel remaining orders and clear the trade; otherwise do nothing. -/
def closePositionWithReason (st : ManagerState) (t : TradeLog) (bv : BrokerView)
    (reason : String) (exit_price : ℚ) : ManagerState × List TradeAction :=
  if bv.close_success then
    let actual_exit := if bv.close_price ≠ 0 then bv.close_price else exit_price
    let pnl := tradePnl t.direction t.entry_price actual_exit t.quantity
    ({ current_trade := none,
       total_trades := st.total_trades + 1,
       winning_trades := st.winning_trades + (if pnl > 0 then 1 else 0),
       total_pnl := st.total_pnl + pnl },
     [TradeAction.closeEvent (actionFor reason) reason actual_exit pnl,
      TradeAction.cancelAllOrders])
  else (st, [])

/-- `PaperTradingManager.check_position_status` as a pure transition on
`(state, broker view)`: orphan-order cleanup when no trade is tracked,
exit classification when the broker position is gone, and the manual TP/SL
checks (`has_tp_order = take_profit > 0`, `has_sl_order = stop_loss > 0`)
while the position is still open. -/
def checkPositionStatus (cfg : TradingConfig) (st : ManagerState) (bv : BrokerView) :
    ManagerState × List TradeAction :=
  match st.current_trade with
  | none =>
    if bv.open_orders > 0 then (st, [TradeAction.cancelAllOrders]) else (st, [])
  | some t =>
    match bv.position with
    | none =>
      let pnl := tradePnl t.direction t.entry_price bv.current_price t.quantity
      let reason := if pnl > 0 then "take_profit" else "stop_loss"
      let action := if reason = "take_profit" then "TAKE_PROFIT" else "STOP_LOSS"
      ({ current_trade := none,
         total_trades := st.total_trades + 1,
         winning_trades := st.winning_trades + (if pnl > 0 then 1 else 0),
         total_pnl := st.total_pnl + pnl },
       [TradeAction.closeEvent action reason bv.current_price pnl,
        TradeAction.cancelAllOrders])
    | some _ =>
      let pnl_pct := pnlPct t.direction t.entry_price bv.current_price
      let has_tp_order := t.take_profit > 0
      let has_sl_order := t.stop_loss > 0
      if ¬has_tp_order ∧ pnl_pct ≥ cfg.take_profit_pct then
        closePositionWithReason st t bv "take_profit_manual" bv.current_price
      else if ¬has_sl_order ∧ pnl_pct ≤ -cfg.stop_loss_pct then
        closePositionWithReason st t bv "stop_loss_manual" bv.current_price
      else (st, [])

/-! ## Broker rounding and position sizing -/

/-- Python's `round` on an exact rational: nearest integer, ties to even. -/
def pyRound (q : ℚ) : ℤ :=
  let f := ⌊q⌋
  let r := q - f
  if r < 1/2 then f
  else if 1/2 < r then f + 1
  else if 2 ∣ f then f else f + 1

/-- Per-symbol filter info cached from `exchangeInfo`, with the source's
fallback defaults. -/
structure SymbolInfo where
  qty_precision : Nat := 3
  min_qty : ℚ := mkRat 1 1000
  step_size : ℚ := mkRat 1 1000
  price_precision : Nat := 2
deriving DecidableEq, Repr

/-- Python's `round(x, p)` idealised on exact rationals. -/
def pyRoundTo (q : ℚ) (p : Nat) : ℚ := (pyRound (q * 10 ^ p) : ℚ) / 10 ^ p

/-- `BinanceTestnetConnector.round_quantity`: `round(q / step) * step`, then
rounded to `qty_precision` decimal places. -/
def round_quantity (info : SymbolInfo) (quantity : ℚ) : ℚ :=
  pyRoundTo ((pyRound (quantity / info.step_size) : ℚ) * info.step_size) info.qty_precision

/-- Modelled from the spec: `round_down_to_step` (spec §4.4 sizing rule
`qty = round_down_to_step(min(risk_based_qty, max_qty))`).  The source has no
such flooring helper; this definition follows the spec's words and is
compared against the source's `round_quantity`. -/
def round_down_to_step (q step : ℚ) : ℚ := (⌊q / step⌋ : ℚ) * step

/-- The unrounded `min(risk_based_qty, max_qty)` of `process_signal`. -/
def rawQty (cfg : TradingConfig) (balance price : ℚ) : ℚ :=
  let risk_amount := balance * cfg.risk_per_trade
  let sl_distance := price * (cfg.stop_loss_pct / 100)
  let risk_based_qty := risk_amount / sl_distance
  let max_qty := cfg.max_position_value / price
  min risk_based_qty max_qty

/-- The position size computed by `process_signal` (lines 383-394). -/
def processSignalQty (cfg : TradingConfig) (balance price : ℚ) (info : SymbolInfo) : ℚ :=
  round_quantity info (rawQty cfg balance price)

/-- The sizing decision of `process_signal`: skip (`none`) when the rounded
quantity is below `min_qty`, else trade that quantity. -/
def processSignalDecision (cfg : TradingConfig) (balance price : ℚ) (info : SymbolInfo) :
    Option ℚ :=
  let quantity := processSignalQty cfg balance price info
  if quantity < info.min_qty then none else some quantity

/-- The spec sentence of claim C7 at one input: the order quantity is
`min(risk_based_qty, max_qty)` rounded *down* to the step size. -/
def qtyRoundedDown (cfg : TradingConfig) (balance price : ℚ) (info : SymbolInfo) : Prop :=
  processSignalQty cfg balance price info =
    round_down_to_step (rawQty cfg balance price) info.step_size

/-- Symbol filters for the C7 counterexample: step 1, precision 0. -/
def unitStepInfo : SymbolInfo :=
  { qty_precision := 0, min_qty := 1, step_size := 1, price_precision := 2 }

/-! ## Event loggers (`backend/services/trade_logger.py`, `signal_logger.py`) -/

/-- Persisted `TradeEvent`.  The free-form JSON `meta` object is modelled as
an association list. -/
structure TradeEvent where
  id : String
  ts : String
  symbol : String
  timeframe : String
  side : String
  action : String
  qty : ℚ
  entry_price : ℚ
  exit_price : Option ℚ := none
  pnl : ℚ := 0
  fees : ℚ := 0
  reason : String := ""
  signal_id : Option String := none
  meta : List (String × String) := []
deriving DecidableEq, Repr

/-- Persisted `SignalEvent`. -/
structure SignalEvent where
  id : String
  ts : String
  symbol : String
  timeframe : String
  signal_type : String
  strength : ℚ
  delta : ℚ
  ifi : ℚ
  vortex : ℚ
  regime : String
  decision : String
  reason : String
  linked_trade_id : Option String := none
  meta : List (String × String) := []
deriving DecidableEq, Repr

/-- A JSONL file as the loader sees it: one entry per non-blank line, `some r`
when the line parses into record `r` (serialising a record and parsing it back
is the identity), `none` for a line the JSON parser or constructor rejects. -/
@[reducible] def JsonlFile (α : Type) : Type := List (Option α)

/-- File effect of `log_event` / `log_signal`: append one serialised record. -/
def logAppend {α : Type} (file : JsonlFile α) (r : α) : JsonlFile α := file ++ [some r]

/-- N successive `log_*` calls. -/
def logAppendAll {α : Type} (file : JsonlFile α) (rs : List α) : JsonlFile α :=
  rs.foldl logAppend file

/-- `TradeLogger.load_from_disk`: parse every line, skipping invalid ones. -/
def tradeLoadFromDisk (file : JsonlFile TradeEvent) : List TradeEvent :=
  file.filterMap id

/-- `SignalLogger.load_from_disk`: keep only the last `limit` lines (default
1000), then parse those, skipping invalid ones. -/
def signalLoadFromDisk (file : JsonlFile SignalEvent) (limit : Nat := 1000) :
    List SignalEvent :=
  let recent := if file.length > limit then file.drop (file.length - limit) else file
  recent.filterMap id

/-- A concrete valid signal record. -/
def sampleSignalEvent : SignalEvent :=
  { id := "s1", ts := "2026-01-01T00:00:00", symbol := "BTCUSDT", timeframe := "1m",
    signal_type := "LONG", strength := 1, delta := 0, ifi := 0, vortex := 0,
    regime := "NEUTRAL", decision := "EXECUTED", reason := "" }

/-- A concrete valid trade record. -/
def sampleTradeEvent : TradeEvent :=
  { id := "t1", ts := "2026-01-01T00:00:00", symbol := "BTCUSDT", timeframe := "1m",
    side := "BUY", action := "OPEN", qty := 1, entry_price := 100 }

/-- Open LONG trade at 100 with no recorded protective orders, for the C1
witness. -/
def tpTrade : TradeLog :=
  { direction := "LONG", entry_price := 100, quantity := 1, stop_loss := 0, take_profit := 0 }

/-- Matching broker position for the C1 witness. -/
def tpPosition : Position := { side := "LONG", entry_price := 100, quantity := 1 }

/-- Broker view for the C1 witness: position open, price at 102 (2% profit),
close succeeds at 102. -/
def tpBroker : BrokerView :=
  { position := some tpPosition, current_price := 102, open_orders := 0,
    close_success := true, close_price := 102 }

/-- Manager state tracking `tpTrade`. -/
def tpState : ManagerState := { current_trade := some tpTrade }

/-! ## Topology engine (`backend/topology/engine.py`)

Square roots force this part of the embedding into `ℝ` (noncomputable);
bar data stays rational.  Exact arithmetic idealises the floats; in
particular `int(0.7 * len)` is modelled as `7 * len / 10` in `ℕ`. -/

/-- `VortexMarker`; the timestamp is omitted. -/
structure VortexMarker where
  index : Nat
  price : ℝ
  strength : ℝ
  direction : String

/-- `TopologySnapshot` for one window; symbol and timestamp omitted. -/
structure TopologySnapshot where
  coherence : ℝ
  energy : ℝ
  vortexes : List VortexMarker

/-- Per-bar returns (engine.py 29-35): `ret_0 = 0`, else
`(close_i - close_{i-1}) / |close_{i-1}|`, and 0 when the previous close
is 0. -/
noncomputable def topoReturns : List Bar → List ℝ
  | [] => []
  | b :: bs =>
    0 :: ((b :: bs).zip bs).map fun pr =>
      if pr.1.close = 0 then 0
      else ((pr.2.close : ℝ) - (pr.1.close : ℝ)) / |(pr.1.close : ℝ)|

/-- Per-bar flows (engine.py 37-41): `delta/volume` when the volume is
positive (hence truthy) and `delta` is present, else 0. -/
noncomputable def topoFlows (bars : List Bar) : List ℝ :=
  bars.map fun b =>
    match b.delta with
    | some d => if 0 < b.volume then (d : ℝ) / (b.volume : ℝ) else 0
    | none => 0

/-- Euclidean norm of a 2-vector, as in the nested `norm` helper. -/
noncomputable def norm2 (v : ℝ × ℝ) : ℝ := Real.sqrt (v.1 * v.1 + v.2 * v.2)

/-- Normalised rotation at one interior index (engine.py 55-60): the cross
product of the previous and next vectors over the product of their norms,
zeroed when the denominator is below `1e-9`. -/
noncomputable def rotOf (vprev vnext : ℝ × ℝ) : ℝ :=
  let cross := vprev.1 * vnext.2 - vprev.2 * vnext.1
  let denom := norm2 vprev * norm2 vnext
  if denom < 1/1000000000 then 0 else cross / denom

/-- Sliding triples `(l[k-1], l[k], l[k+1])` for `k = 1 .. len-2`. -/
def triples {α : Type} (l : List α) : List (α × α × α) :=
  l.zip (l.tail.zip l.tail.tail)

/-- Data available at one interior index `k`: the three vectors and the
bar `bars[k]`. -/
structure TopoItem where
  vprev : ℝ × ℝ
  vcurr : ℝ × ℝ
  vnext : ℝ × ℝ
  bar : Bar

/-- The interior-index view of a window: `(return, flow)` vectors zipped with
their bars, in sliding triples. -/
noncomputable def topoItems (bars : List Bar) : List TopoItem :=
  let vecs := (topoReturns bars).zip (topoFlows bars)
  (triples (vecs.zip bars)).map fun tr =>
    { vprev := tr.1.1, vcurr := tr.2.1.1, vnext := tr.2.2.1, bar := tr.2.1.2 }

/-- `rotations`: `rot_k` for each interior index. -/
noncomputable def rotations (bars : List Bar) : List ℝ :=
  (topoItems bars).map fun it => rotOf it.vprev it.vnext

/-- `energies`: `energy_k = |ret_k| * volume_k` (`volume or 0.0` keeps the
value). -/
noncomputable def energies (bars : List Bar) : List ℝ :=
  (topoItems bars).map fun it => |it.vcurr.1| * (it.bar.volume : ℝ)

open Classical in
/-- `sorted(energies)[len // 2]`: running median of the energies seen so
far (the engine computes it inside the loop, engine.py 69). -/
noncomputable def medianOfRun (es : List ℝ) : ℝ :=
  (es.mergeSort (fun a b => a ≤ b)).getD (es.length / 2) 0

/-- Composite scores (engine.py 67-75): `|rot_k| * sqrt(energy_k / median)`
with the running median, zero when the median is not positive. -/
noncomputable def compositeScores (bars : List Bar) : List ℝ :=
  let es := energies bars
  let rots := rotations bars
  (List.range rots.length).map fun j =>
    let energy_k := es.getD j 0
    let median_energy := medianOfRun (es.take (j + 1))
    let normalized_energy :=
      if 0 < median_energy then Real.sqrt (energy_k / median_energy) else 0
    |rots.getD j 0| * normalized_energy

open Classical in
/-- The 70th-percentile energy threshold (engine.py 88-91):
`sorted_energies[min(int(0.7 * len), len - 1)]`. -/
noncomputable def energyThreshold (bars : List Bar) : ℝ :=
  let sorted_energies := (energies bars).mergeSort (fun a b => a ≤ b)
  let thr_index := min (7 * sorted_energies.length / 10) (sorted_energies.length - 1)
  sorted_energies.getD thr_index 0

/-- A zero bar used only as an out-of-range default for `getD`. -/
def zeroBar : Bar := { high := 0, low := 0, close := 0, volume := 0 }

open Classical in
/-- Vortex detection (engine.py 93-107): interior index `k = j + 1` is a
vortex iff `composite_k ≥ 0.08` and `energy_k ≥ threshold`; direction is
clockwise for negative rotation. -/
noncomputable def topologyVortexes (bars : List Bar) : List VortexMarker :=
  let cs := compositeScores bars
  let es := energies bars
  let rots := rotations bars
  let thr := energyThreshold bars
  ((List.range cs.length).filter fun j =>
      decide (cs.getD j 0 ≥ 8/100 ∧ es.getD j 0 ≥ thr)).map fun j =>
    { index := j + 1,
      price := ((bars.getD (j + 1) zeroBar).close : ℝ),
      strength := |rots.getD j 0|,
      direction := if rots.getD j 0 < 0 then "clockwise" else "counterclockwise" }

/-- `TopologyEngine.compute`: empty snapshot for windows shorter than 3 (or
with no interior rotations), else coherence = mean `|rot|`, energy = last
`energy_k`, and the vortex markers. -/
noncomputable def TopologyEngine.compute (bars : List Bar) : TopologySnapshot :=
  if bars.length < 3 then { coherence := 0, energy := 0, vortexes := [] }
  else
    let rots := rotations bars
    let es := energies bars
    if rots.isEmpty then { coherence := 0, energy := 0, vortexes := [] }
    else
      { coherence := (rots.map fun r => |r|).sum / rots.length,
        energy := es.getLastD 0,
        vortexes := topologyVortexes bars }

/-- A three-bar flat window for the topology witness. -/
def threeFlatBars : List Bar := [flatBar, flatBar, flatBar]

/-! ## Predictive engine (`backend/predictive/engine.py`)

`random.gauss` draws from Python's module-global RNG; the engine takes no
seed.  The embedding makes that hidden stream an explicit argument
`eps : Nat → Nat → ℝ` (scenario, step), so `compute` is a function of the
window *and* of the ambient RNG stream. -/

/-- Constructor parameters of `PredictiveEngine` with the source defaults. -/
structure PredictiveEngine where
  window_size : Nat := 200
  horizon_bars : Nat := 20
  num_scenarios : Nat := 20
  breakout_atr_mult : ℚ := 1
  collapse_atr_mult : ℚ := mkRat 1 2
deriving DecidableEq, Repr

/-- `PredictiveSnapshot`; symbol and timestamp omitted. -/
structure PredictiveSnapshot where
  horizon_bars : Nat
  num_scenarios : Nat
  IFI : ℝ
  breakout_probability_up : ℝ
  breakout_probability_down : ℝ
  energy_collapse_risk : ℝ
  cone_upper : List ℝ
  cone_lower : List ℝ

/-- Returns over consecutive closes (engine.py 56-61): 0 when the previous
close is 0. -/
def predReturns (closes : List ℚ) : List ℚ :=
  (closes.zip closes.tail).map fun pr =>
    if pr.1 = 0 then 0 else (pr.2 - pr.1) / |pr.1|

/-- Sample standard deviation of the returns (engine.py 63-68): 0 for an
empty list, else `sqrt(Σ (r - mean)² / max(1, n - 1))`. -/
noncomputable def predSigma (closes : List ℚ) : ℝ :=
  let returns := predReturns closes
  if returns.isEmpty then 0
  else
    let mean_ret := returns.sum / (returns.length : ℚ)
    let varSum := ((returns.map fun r => (r - mean_ret) ^ 2).sum) / ((max 1 (returns.length - 1) : ℕ) : ℚ)
    Real.sqrt (varSum : ℝ)

/-- ATR (engine.py 70-74): mean of `high - low` over the last
`min(20, N)` bars, replaced by `1e-6` when it is 0 (Python `or`). -/
def atrOf (bars : List Bar) : ℚ :=
  let recent := bars.drop (bars.length - min 20 bars.length)
  let true_ranges := recent.map fun b => b.high - b.low
  let avg_tr := if true_ranges.isEmpty then 0 else true_ranges.sum / (true_ranges.length : ℚ)
  if avg_tr = 0 then mkRat 1 1000000 else avg_tr

/-- `max()` of a list as Python computes it (callers pass non-empty lists). -/
def listMax : List ℚ → ℚ
  | [] => 0
  | x :: xs => xs.foldl max x

/-- `min()` of a list as Python computes it. -/
def listMin : List ℚ → ℚ
  | [] => 0
  | x :: xs => xs.foldl min x

/-- One Monte-Carlo path (engine.py 85-93): `H` multiplicative steps
`price * (1 + σ·ε)`, every step's price stored. -/
noncomputable def simPath (sigma : ℝ) (eps : Nat → ℝ) : Nat → ℝ → List ℝ
  | 0, _ => []
  | Nat.succ H, price =>
    let price2 := price * (1 + sigma * eps 0)
    price2 :: simPath sigma (fun i => eps (i + 1)) H price2

/-- All `num_scenarios` paths, each fed from its slice of the RNG stream. -/
noncomputable def predPaths (e : PredictiveEngine) (sigma : ℝ) (last_price : ℝ)
    (eps : Nat → Nat → ℝ) : List (List ℝ) :=
  (List.range e.num_scenarios).map fun s => simPath sigma (eps s) e.horizon_bars last_price

/-- Per-horizon-step `(mean, sample stdev)` across scenarios
(engine.py 99-109). -/
noncomputable def coneStats (paths : List (List ℝ)) (H : Nat) : List (ℝ × ℝ) :=
  (List.range H).map fun h =>
    let step_values := paths.map fun path => path.getD h 0
    let mean_h := step_values.sum / (step_values.length : ℝ)
    let var_h := ((step_values.map fun v => (v - mean_h) ^ 2).sum) /
      ((max 1 (step_values.length - 1) : ℕ) : ℝ)
    (mean_h, Real.sqrt var_h)

open Classical in
/-- `PredictiveEngine.compute`.  For fewer than 2 bars, the degenerate
snapshot (the second early return for `None` closes cannot fire here: the
modelled `close` field is total).  Otherwise: σ from the returns, ATR and
recent extremes, `S` simulated paths, the ±1-stdev cone, breakout fractions,
collapse fraction and the clamped IFI. -/
noncomputable def PredictiveEngine.compute (e : PredictiveEngine) (bars : List Bar)
    (eps : Nat → Nat → ℝ) : PredictiveSnapshot :=
  if bars.length < 2 then
    { horizon_bars := e.horizon_bars, num_scenarios := e.num_scenarios,
      IFI := 0, breakout_probability_up := 0, breakout_probability_down := 0,
      energy_collapse_risk := 0,
      cone_upper := List.replicate e.horizon_bars ((bars.getLastD zeroBar).close : ℝ),
      cone_lower := List.replicate e.horizon_bars ((bars.getLastD zeroBar).close : ℝ) }
  else
    let closes := bars.map fun b => b.close
    let sigma := predSigma closes
    let atr := atrOf bars
    let recent := bars.drop (bars.length - min 20 bars.length)
    let recent_high := listMax (recent.map fun b => b.high)
    let recent_low := listMin (recent.map fun b => b.low)
    let breakout_up_level := recent_high + e.breakout_atr_mult * atr
    let breakout_down_level := recent_low - e.breakout_atr_mult * atr
    let last_price := closes.getLastD 0
    let paths := predPaths e sigma (last_price : ℝ) eps
    let stats := coneStats paths e.horizon_bars
    let count_up := paths.countP fun path =>
      decide (∃ pp ∈ path, pp ≥ ((breakout_up_level : ℚ) : ℝ))
    let count_down := paths.countP fun path =>
      decide (∃ pp ∈ path, pp ≤ ((breakout_down_level : ℚ) : ℝ))
    let collapse_band := e.collapse_atr_mult * atr
    let count_collapse := paths.countP fun path =>
      decide (|path.getLastD 0 - ((last_price : ℚ) : ℝ)| ≤ ((collapse_band : ℚ) : ℝ))
    let avg_std := if stats.isEmpty then 0 else (stats.map fun st => st.2).sum / (stats.length : ℝ)
    { horizon_bars := e.horizon_bars, num_scenarios := e.num_scenarios,
      IFI := max 0 (min 100 (avg_std / (|((last_price : ℚ) : ℝ)| + 1/1000000000) * 10000)),
      breakout_probability_up := (count_up : ℝ) / (e.num_scenarios : ℝ),
      breakout_probability_down := (count_down : ℝ) / (e.num_scenarios : ℝ),
      energy_collapse_risk := (count_collapse : ℝ) / (e.num_scenarios : ℝ),
      cone_upper := stats.map fun st => st.1 + st.2,
      cone_lower := stats.map fun st => st.1 - st.2 }

/-- A three-bar window whose closes move 1 → 2 → 1, so σ > 0. -/
def wiggleBars : List Bar :=
  [{ high := 1, low := 1, close := 1, volume := 1 },
   { high := 2, low := 1, close := 2, volume := 1 },
   { high := 2, low := 1, close := 1, volume := 1 }]

/-- A one-scenario, one-step engine for the RNG-dependence theorem. -/
def tinyEngine : PredictiveEngine := { horizon_bars := 1, num_scenarios := 1 }

/-- A two-bar flat window for the predictive witness. -/
def twoFlatBars : List Bar := [flatBar, flatBar]

-- DEFINITIONS-CONTINUE-HERE

/-! ## Lemmas about the signal chains -/

lemma longChain_types (e : SignalsEngine) (t : String) (str : ℚ) (r : Bool)
    (I bu ec : ℚ) {s : Signal} (hs : s ∈ longChain e t str r I bu ec) :
    s.type = "predictive_breakout_long" := by
  unfold longChain at hs
  split_ifs at hs <;> simp_all

lemma longChain_not_rising (e : SignalsEngine) (t : String) (str : ℚ)
    (I bu ec : ℚ) : longChain e t str false I bu ec = [] := by
  unfold longChain
  split_ifs with h1 h2 <;> first | rfl | exact h2.2.elim

lemma shortChain_not_rising_types (e : SignalsEngine) (t : String) (str : ℚ)
    (I bu bd ec : ℚ) {s : Signal}
    (hs : s ∈ shortChain e t str false I bu bd ec) :
    s.type = "flow_neutral_watch" := by
  unfold shortChain at hs
  split_ifs at hs with h1 h2 <;> simp_all

lemma shortChain_neutral_iff (e : SignalsEngine) (t : String) (str : ℚ) (r : Bool)
    (I bu bd ec : ℚ) :
    (∃ s ∈ shortChain e t str r I bu bd ec, s.isNeutral ∧
        s.confidence = max 0 (min 1 (1 - max bu bd))) ↔
      (¬(e.block_contratrend ∧ t = "BULLISH" ∧ str ≥ mkRat 1 2) ∧
        ¬(bd ≥ e.breakout_threshold_short ∧ r = true)) := by
  unfold shortChain
  by_cases h1 : e.block_contratrend = true ∧ t = "BULLISH" ∧ str ≥ mkRat 1 2
  · rw [if_pos h1]
    exact iff_of_false (by rintro ⟨s, hs, -⟩; simp at hs) (fun h => h.1 h1)
  · rw [if_neg h1]
    by_cases h2 : bd ≥ e.breakout_threshold_short ∧ r = true
    · rw [if_pos h2]
      refine iff_of_false ?_ (fun h => h.2 h2)
      by_cases h3 : t ≠ "NEUTRAL" ∧ str < e.min_delta_strength
      · rw [if_pos h3]; rintro ⟨s, hs, -⟩; simp at hs
      · rw [if_neg h3]
        rintro ⟨s, hs, hn, -⟩
        simp only [List.mem_singleton] at hs
        subst hs
        simp [Signal.isNeutral] at hn
    · rw [if_neg h2]
      exact iff_of_true ⟨_, List.mem_singleton_self _, rfl, rfl⟩ ⟨h1, h2⟩

/-! ## Claim C2 -/

/-- C2, corrected.  The NEUTRAL signal (with the clamped confidence
`max 0 (min 1 (1 - max bp_up bp_down))`) is emitted exactly when the SHORT
chain falls through to its `else` branch: neither the SHORT contra-trend
block nor the SHORT entry condition holds.  Emission of a LONG signal is
irrelevant, so a LONG call can also emit the NEUTRAL signal, and a
contra-blocked call can emit nothing. -/
theorem neutral_signal_iff_short_chain_else (e : SignalsEngine) (st : SignalsState)
    (p : PredIn) (bars : Option (List Bar)) :
    (∃ s ∈ (e.compute st p bars).1, s.isNeutral ∧
        s.confidence =
          max 0 (min 1 (1 - max p.breakout_probability_up p.breakout_probability_down))) ↔
      (¬(e.block_contratrend ∧ (e.compute_delta_trend (e.histAfter st bars)).1 = "BULLISH" ∧
            (e.compute_delta_trend (e.histAfter st bars)).2 ≥ mkRat 1 2) ∧
        ¬(p.breakout_probability_down ≥ e.breakout_threshold_short ∧
            ifiRising st p.IFI = true)) := by
  rw [← shortChain_neutral_iff e (e.compute_delta_trend (e.histAfter st bars)).1
      (e.compute_delta_trend (e.histAfter st bars)).2 (ifiRising st p.IFI) p.IFI
      p.breakout_probability_up p.breakout_probability_down p.energy_collapse_risk]
  simp only [SignalsEngine.compute, List.mem_append]
  constructor
  · rintro ⟨s, hs | hs, hn, hc⟩
    · exact absurd hn (by simp [Signal.isNeutral, longChain_types e _ _ _ _ _ _ hs])
    · exact ⟨s, hs, hn, hc⟩
  · rintro ⟨s, hs, hn, hc⟩
    exact ⟨s, Or.inr hs, hn, hc⟩

/-- C2, counterexample.  With `bp_up = 0.7`, `bp_down = 0.1`, a rising IFI and
a NEUTRAL delta trend, `compute` emits the LONG signal *and* the NEUTRAL
signal in the same call, so "NEUTRAL exactly when neither LONG nor SHORT is
emitted" is false. -/
theorem neutral_not_exclusive_cex :
    ¬ neutralExactlyWhenNoDirectional defaultEngine stateWithRisingContext predLongOnly none := by
  norm_num [neutralExactlyWhenNoDirectional, SignalsEngine.compute, longChain, shortChain,
    SignalsEngine.compute_delta_trend, SignalsEngine.histAfter, ifiRising,
    Signal.isLong, Signal.isShort, Signal.isNeutral, defaultEngine, stateWithRisingContext,
    predLongOnly, Rat.mkRat_eq_div]

/-! ## Claim C3 -/

/-- C3, counterexample.  With `bp_up = bp_down = 0.7`, a rising IFI and a
NEUTRAL delta trend, both the LONG and SHORT conditions hold and `compute`
emits *both* signals: LONG does not take precedence over SHORT. -/
theorem long_precedence_cex :
    ¬ longTakesPrecedence defaultEngine stateWithRisingContext predBothDirections none := by
  norm_num [longTakesPrecedence, SignalsEngine.compute, longChain, shortChain,
    SignalsEngine.compute_delta_trend, SignalsEngine.histAfter, ifiRising,
    Signal.isLong, Signal.isShort, Signal.isNeutral, defaultEngine, stateWithRisingContext,
    predBothDirections, Rat.mkRat_eq_div]

/-- C3, corrected.  When the LONG conditions and the SHORT conditions hold in
the same call, `compute` emits exactly two signals: the LONG one followed by
the SHORT one (the two `if/elif` chains are independent). -/
theorem both_direction_signals_emitted (e : SignalsEngine) (st : SignalsState)
    (p : PredIn) (bars : Option (List Bar))
    (h1 : p.breakout_probability_up ≥ e.breakout_threshold_long)
    (h2 : ifiRising st p.IFI = true)
    (h3 : ¬(e.block_contratrend ∧ (e.compute_delta_trend (e.histAfter st bars)).1 = "BEARISH" ∧
        (e.compute_delta_trend (e.histAfter st bars)).2 ≥ mkRat 1 2))
    (h4 : ¬((e.compute_delta_trend (e.histAfter st bars)).1 ≠ "NEUTRAL" ∧
        (e.compute_delta_trend (e.histAfter st bars)).2 < e.min_delta_strength))
    (h5 : p.breakout_probability_down ≥ e.breakout_threshold_short)
    (h6 : ¬(e.block_contratrend ∧ (e.compute_delta_trend (e.histAfter st bars)).1 = "BULLISH" ∧
        (e.compute_delta_trend (e.histAfter st bars)).2 ≥ mkRat 1 2)) :
    ∃ a b, (e.compute st p bars).1 = [a, b] ∧ a.isLong ∧ b.isShort := by
  simp only [SignalsEngine.compute]
  unfold longChain shortChain
  rw [if_neg h3, if_pos ⟨h1, h2⟩, if_neg h4, if_neg h6, if_pos ⟨h5, h2⟩, if_neg h4]
  exact ⟨_, _, rfl, rfl, rfl⟩

/-- Witness for `both_direction_signals_emitted` at the C3 counterexample
input. -/
theorem both_direction_signals_emitted_witness :
    (predBothDirections.breakout_probability_up ≥ defaultEngine.breakout_threshold_long ∧
      ifiRising stateWithRisingContext predBothDirections.IFI = true ∧
      ¬(defaultEngine.block_contratrend ∧
          (defaultEngine.compute_delta_trend
              (defaultEngine.histAfter stateWithRisingContext none)).1 = "BEARISH" ∧
          (defaultEngine.compute_delta_trend
              (defaultEngine.histAfter stateWithRisingContext none)).2 ≥ mkRat 1 2) ∧
      ¬((defaultEngine.compute_delta_trend
              (defaultEngine.histAfter stateWithRisingContext none)).1 ≠ "NEUTRAL" ∧
          (defaultEngine.compute_delta_trend
              (defaultEngine.histAfter stateWithRisingContext none)).2 <
            defaultEngine.min_delta_strength) ∧
      predBothDirections.breakout_probability_down ≥ defaultEngine.breakout_threshold_short ∧
      ¬(defaultEngine.block_contratrend ∧
          (defaultEngine.compute_delta_trend
              (defaultEngine.histAfter stateWithRisingContext none)).1 = "BULLISH" ∧
          (defaultEngine.compute_delta_trend
              (defaultEngine.histAfter stateWithRisingContext none)).2 ≥ mkRat 1 2)) ∧
    (∃ a b, (defaultEngine.compute stateWithRisingContext predBothDirections none).1 = [a, b] ∧
      a.isLong ∧ b.isShort) :=
  ⟨⟨by decide, by decide, by decide, by decide, by decide, by decide⟩,
    both_direction_signals_emitted defaultEngine stateWithRisingContext predBothDirections none
      (by decide) (by decide) (by decide) (by decide) (by decide) (by decide)⟩

/-! ## Claim C9 -/

/-- C9.  On the first `compute` call for a symbol (`last_IFI` not yet
recorded) `IFI_rising` is false, so no LONG or SHORT signal can be emitted,
and the call records the current IFI in the state. -/
theorem first_compute_no_directional (e : SignalsEngine) (st : SignalsState)
    (p : PredIn) (bars : Option (List Bar)) (h : st.last_IFI = none) :
    (∀ s ∈ (e.compute st p bars).1, ¬ s.isLong ∧ ¬ s.isShort) ∧
      (e.compute st p bars).2.last_IFI = some p.IFI := by
  have hr : ifiRising st p.IFI = false := by simp [ifiRising, h]
  constructor
  · intro s hs
    simp only [SignalsEngine.compute, List.mem_append] at hs
    rw [hr] at hs
    rcases hs with hs | hs
    · rw [longChain_not_rising] at hs
      simp at hs
    · have ht := shortChain_not_rising_types _ _ _ _ _ _ _ hs
      constructor
      · intro hL
        rw [Signal.isLong, ht] at hL
        simp at hL
      · intro hS
        rw [Signal.isShort, ht] at hS
        simp at hS
  · rfl

/-- Witness for `first_compute_no_directional` on a fresh state with strong
breakout probabilities. -/
theorem first_compute_no_directional_witness :
    freshState.last_IFI = none ∧
      ((∀ s ∈ (defaultEngine.compute freshState predBothDirections none).1,
          ¬ s.isLong ∧ ¬ s.isShort) ∧
        (defaultEngine.compute freshState predBothDirections none).2.last_IFI =
          some predBothDirections.IFI) :=
  ⟨rfl, first_compute_no_directional defaultEngine freshState predBothDirections none rfl⟩

/-! ## Claim C10 -/

/-- C10.  With fewer than three bars in the ring, or zero total volume over
it, `_compute_delta_trend` returns `(NEUTRAL, 0.0)` exactly. -/
theorem delta_trend_neutral_on_short_or_zero (e : SignalsEngine) (hist : List Bar)
    (h : hist.length < 3 ∨ totalVolume hist = 0) :
    e.compute_delta_trend hist = ("NEUTRAL", 0) := by
  unfold SignalsEngine.compute_delta_trend
  rcases h with h | h
  · simp [h]
  · simp [h]

/-- Witness for `delta_trend_neutral_on_short_or_zero` on the empty ring. -/
theorem delta_trend_neutral_on_short_or_zero_witness :
    (([] : List Bar).length < 3 ∨ totalVolume [] = 0) ∧
      defaultEngine.compute_delta_trend [] = ("NEUTRAL", 0) :=
  ⟨by decide, delta_trend_neutral_on_short_or_zero defaultEngine [] (by decide)⟩

/-! ## Lemmas for rounding and the loggers -/

lemma pyRound_near (q : ℚ) : |(pyRound q : ℚ) - q| ≤ 1/2 := by
  have h0 : (0:ℚ) ≤ q - ⌊q⌋ := sub_nonneg.mpr (Int.floor_le q)
  have h1 : q - ⌊q⌋ < 1 := by
    have := Int.lt_floor_add_one q
    linarith
  simp only [pyRound]
  split_ifs with ha hb hc <;> rw [abs_le] <;> constructor <;>
    first | linarith | (push_cast; linarith)

lemma round_step_near (m step : ℚ) (hstep : 0 < step) :
    |(pyRound (m / step) : ℚ) * step - m| ≤ step / 2 := by
  have h := pyRound_near (m / step)
  have h2 : |((pyRound (m / step) : ℚ) - m / step) * step| ≤ 1/2 * step := by
    rw [abs_mul, abs_of_pos hstep]
    exact mul_le_mul_of_nonneg_right h hstep.le
  have h3 : ((pyRound (m / step) : ℚ) - m / step) * step =
      (pyRound (m / step) : ℚ) * step - m := by
    rw [sub_mul, div_mul_cancel₀ _ (ne_of_gt hstep)]
  rw [h3] at h2
  linarith [h2]

lemma logAppendAll_eq {α : Type} (file : JsonlFile α) (rs : List α) :
    logAppendAll file rs = file ++ rs.map some := by
  induction rs generalizing file with
  | nil => simp [logAppendAll]
  | cons r rs ih =>
    rw [logAppendAll, List.foldl_cons]
    show logAppendAll (logAppend file r) rs = _
    rw [ih, logAppend, List.append_assoc]
    rfl

lemma filterMap_id_map_some {α : Type} (l : List α) : (l.map some).filterMap id = l := by
  simp

lemma signalLoad_length_le (file : JsonlFile SignalEvent) (limit : Nat) :
    (signalLoadFromDisk file limit).length ≤ limit := by
  simp only [signalLoadFromDisk]
  split_ifs with h
  · calc (List.filterMap id (file.drop (file.length - limit))).length
        ≤ (file.drop (file.length - limit)).length := List.length_filterMap_le _ _
      _ = file.length - (file.length - limit) := List.length_drop _ _
      _ ≤ limit := by omega
  · calc (List.filterMap id file).length ≤ file.length := List.length_filterMap_le _ _
      _ ≤ limit := by omega

/-! ## Claim C1 -/

/-- C1.  While the broker still reports a position and the close order
succeeds: if no take-profit is recorded (`take_profit > 0` fails) and the
recomputed `pnl_pct` is at least `take_profit_pct`, the trade is closed with
reason `take_profit_manual` (event action TAKE_PROFIT, `current_trade`
cleared); symmetrically with no recorded stop-loss and
`pnl_pct ≤ -stop_loss_pct`, it is closed with reason `stop_loss_manual`.
The percentage hypotheses (`take_profit_pct > 0`, `stop_loss_pct ≥ 0`) keep
the two manual branches disjoint, as in every shipped configuration. -/
theorem manual_tp_sl_close (cfg : TradingConfig) (st : ManagerState) (bv : BrokerView)
    (t : TradeLog) (p : Position)
    (hct : st.current_trade = some t)
    (hpos : bv.position = some p)
    (hcs : bv.close_success = true)
    (htp : 0 < cfg.take_profit_pct)
    (hsl : 0 ≤ cfg.stop_loss_pct) :
    ((¬ t.take_profit > 0) →
        cfg.take_profit_pct ≤ pnlPct t.direction t.entry_price bv.current_price →
        (checkPositionStatus cfg st bv).1.current_trade = none ∧
          ∃ xp pnl, TradeAction.closeEvent "TAKE_PROFIT" "take_profit_manual" xp pnl ∈
              (checkPositionStatus cfg st bv).2) ∧
    ((¬ t.stop_loss > 0) →
        pnlPct t.direction t.entry_price bv.current_price ≤ -cfg.stop_loss_pct →
        (checkPositionStatus cfg st bv).1.current_trade = none ∧
          ∃ xp pnl, TradeAction.closeEvent "STOP_LOSS" "stop_loss_manual" xp pnl ∈
              (checkPositionStatus cfg st bv).2) := by
  have hact_tp : actionFor "take_profit_manual" = "TAKE_PROFIT" := by decide
  have hact_sl : actionFor "stop_loss_manual" = "STOP_LOSS" := by decide
  simp only [checkPositionStatus, hct, hpos]
  constructor
  · intro h1 h2
    rw [if_pos ⟨h1, h2⟩]
    unfold closePositionWithReason
    rw [if_pos hcs]
    refine ⟨rfl, ?_⟩
    rw [hact_tp]
    exact ⟨_, _, List.mem_cons_self _ _⟩
  · intro h1 h2
    have hlt : pnlPct t.direction t.entry_price bv.current_price < cfg.take_profit_pct := by
      have : pnlPct t.direction t.entry_price bv.current_price ≤ 0 :=
        le_trans h2 (neg_nonpos.mpr hsl)
      linarith
    rw [if_neg (fun hc => absurd hc.2 (not_le.mpr hlt)), if_pos ⟨h1, h2⟩]
    unfold closePositionWithReason
    rw [if_pos hcs]
    refine ⟨rfl, ?_⟩
    rw [hact_sl]
    exact ⟨_, _, List.mem_cons_self _ _⟩

/-- Witness for `manual_tp_sl_close`: LONG at 100, price 102, default config
(TP 1%), no recorded orders: the manual TP branch closes the trade. -/
theorem manual_tp_sl_close_witness :
    (tpState.current_trade = some tpTrade ∧ tpBroker.position = some tpPosition ∧
      tpBroker.close_success = true ∧ 0 < ({} : TradingConfig).take_profit_pct ∧
      0 ≤ ({} : TradingConfig).stop_loss_pct) ∧
    (((¬ tpTrade.take_profit > 0) →
        ({} : TradingConfig).take_profit_pct ≤
          pnlPct tpTrade.direction tpTrade.entry_price tpBroker.current_price →
        (checkPositionStatus {} tpState tpBroker).1.current_trade = none ∧
          ∃ xp pnl, TradeAction.closeEvent "TAKE_PROFIT" "take_profit_manual" xp pnl ∈
              (checkPositionStatus {} tpState tpBroker).2) ∧
      ((¬ tpTrade.stop_loss > 0) →
        pnlPct tpTrade.direction tpTrade.entry_price tpBroker.current_price ≤
          -({} : TradingConfig).stop_loss_pct →
        (checkPositionStatus {} tpState tpBroker).1.current_trade = none ∧
          ∃ xp pnl, TradeAction.closeEvent "STOP_LOSS" "stop_loss_manual" xp pnl ∈
              (checkPositionStatus {} tpState tpBroker).2)) :=
  ⟨⟨rfl, rfl, rfl, by decide, by decide⟩,
    manual_tp_sl_close {} tpState tpBroker tpTrade tpPosition rfl rfl rfl
      (by decide) (by decide)⟩

/-! ## Claim C7 -/

/-- C7, counterexample.  With balance 0.6, price 1, default config and step
size 1, the unrounded quantity is 0.6: the source's `round_quantity` returns
1 (nearest step), while the spec's `round_down_to_step` would return 0, so
the quantity is *not* rounded down. -/
theorem qty_not_rounded_down_cex :
    ¬ qtyRoundedDown {} (mkRat 3 5) 1 unitStepInfo := by
  norm_num [qtyRoundedDown, processSignalQty, rawQty, round_quantity, round_down_to_step,
    pyRoundTo, pyRound, unitStepInfo, Rat.mkRat_eq_div, min_def]

/-- C7, corrected.  The order quantity is `min(risk_based_qty, max_qty)`
rounded to the *nearest* multiple of the step size (Python `round`, ties to
even) — within `step/2` of the unrounded value — then to `qty_precision`
decimals, and only the rounded quantity is compared against `min_qty` to
decide whether to skip. -/
theorem qty_nearest_step_then_min_check (cfg : TradingConfig) (balance price : ℚ)
    (info : SymbolInfo) (hstep : 0 < info.step_size) :
    |(pyRound (rawQty cfg balance price / info.step_size) : ℚ) * info.step_size -
        rawQty cfg balance price| ≤ info.step_size / 2 ∧
      (processSignalDecision cfg balance price info = none ↔
        processSignalQty cfg balance price info < info.min_qty) := by
  refine ⟨round_step_near _ _ hstep, ?_⟩
  simp only [processSignalDecision]
  split_ifs with h
  · simp [h]
  · simp [h]

/-- Witness for `qty_nearest_step_then_min_check` at the counterexample
input. -/
theorem qty_nearest_step_then_min_check_witness :
    0 < unitStepInfo.step_size ∧
      (|(pyRound (rawQty {} (mkRat 3 5) 1 / unitStepInfo.step_size) : ℚ) *
            unitStepInfo.step_size - rawQty {} (mkRat 3 5) 1| ≤ unitStepInfo.step_size / 2 ∧
        (processSignalDecision {} (mkRat 3 5) 1 unitStepInfo = none ↔
          processSignalQty {} (mkRat 3 5) 1 unitStepInfo < unitStepInfo.min_qty)) :=
  ⟨by decide, qty_nearest_step_then_min_check {} (mkRat 3 5) 1 unitStepInfo (by decide)⟩

/-! ## Claim C8 -/

/-- C8, counterexample.  Appending 1001 valid records to an empty signals
file and reloading with the default limit of 1000 keeps only the last 1000
records, not the appended sequence. -/
theorem signal_reload_truncates_cex :
    signalLoadFromDisk
        (logAppendAll ([] : JsonlFile SignalEvent) (List.replicate 1001 sampleSignalEvent))
        1000 ≠
      List.replicate 1001 sampleSignalEvent := by
  intro h
  have hlen := signalLoad_length_le
    (logAppendAll ([] : JsonlFile SignalEvent) (List.replicate 1001 sampleSignalEvent)) 1000
  rw [h, List.length_replicate] at hlen
  omega

/-- C8, corrected.  Round trip: appending N valid trade records and reloading
yields the prior contents followed by exactly those records, for every N; for
the signal logger the reload holds the last `min(N, limit)` appended records
(the full sequence whenever `N ≤ limit`, default 1000). -/
theorem logger_round_trip (file : JsonlFile TradeEvent) (rs : List TradeEvent)
    (ss : List SignalEvent) (limit : Nat) :
    tradeLoadFromDisk (logAppendAll file rs) = tradeLoadFromDisk file ++ rs ∧
      (ss.length ≤ limit → signalLoadFromDisk (logAppendAll [] ss) limit = ss) ∧
      signalLoadFromDisk (logAppendAll [] ss) limit = ss.drop (ss.length - limit) := by
  have h3 : signalLoadFromDisk (logAppendAll [] ss) limit = ss.drop (ss.length - limit) := by
    rw [signalLoadFromDisk, logAppendAll_eq]
    simp only [List.nil_append, List.length_map]
    by_cases hl : ss.length > limit
    · rw [if_pos hl, ← List.map_drop, filterMap_id_map_some]
    · rw [if_neg hl, filterMap_id_map_some, Nat.sub_eq_zero_of_le (le_of_not_lt hl),
        List.drop_zero]
  refine ⟨?_, fun h => ?_, h3⟩
  · rw [tradeLoadFromDisk, logAppendAll_eq, List.filterMap_append, filterMap_id_map_some]
    rfl
  · rw [h3, Nat.sub_eq_zero_of_le h, List.drop_zero]

/-- Witness for `logger_round_trip` on one-record logs. -/
theorem logger_round_trip_witness :
    ([sampleSignalEvent].length ≤ 1000) ∧
      tradeLoadFromDisk (logAppendAll [] [sampleTradeEvent]) =
        tradeLoadFromDisk [] ++ [sampleTradeEvent] ∧
      signalLoadFromDisk (logAppendAll [] [sampleSignalEvent]) 1000 = [sampleSignalEvent] :=
  ⟨by decide, (logger_round_trip [] [sampleTradeEvent] [sampleSignalEvent] 1000).1,
    (logger_round_trip [] [sampleTradeEvent] [sampleSignalEvent] 1000).2.1 (by decide)⟩

/-! ## Lemmas for the topology engine -/

lemma abs_cross_le_norms (a b c d : ℝ) :
    |a * d - b * c| ≤ Real.sqrt (a * a + b * b) * Real.sqrt (c * c + d * d) := by
  have h : (a * d - b * c) ^ 2 ≤ (a * a + b * b) * (c * c + d * d) := by
    nlinarith [sq_nonneg (a * c + b * d)]
  have h1 : |a * d - b * c| = Real.sqrt ((a * d - b * c) ^ 2) :=
    (Real.sqrt_sq_eq_abs _).symm
  rw [h1, ← Real.sqrt_mul (by nlinarith [sq_nonneg a, sq_nonneg b])]
  exact Real.sqrt_le_sqrt h

lemma abs_rotOf_le (vp vn : ℝ × ℝ) : |rotOf vp vn| ≤ 1 + 1/1000000000 := by
  simp only [rotOf]
  split_ifs with h
  · rw [abs_zero]
    norm_num
  · push_neg at h
    have hpos : (0:ℝ) < norm2 vp * norm2 vn := lt_of_lt_of_le (by norm_num) h
    have hc : |vp.1 * vn.2 - vp.2 * vn.1| ≤ norm2 vp * norm2 vn := by
      simpa [norm2] using abs_cross_le_norms vp.1 vp.2 vn.1 vn.2
    rw [abs_div, abs_of_pos hpos]
    have hone : |vp.1 * vn.2 - vp.2 * vn.1| / (norm2 vp * norm2 vn) ≤ 1 :=
      (div_le_one hpos).mpr hc
    linarith

lemma mem_topoItems_bar {bars : List Bar} {it : TopoItem} (hit : it ∈ topoItems bars) :
    it.bar ∈ bars := by
  simp only [topoItems, List.mem_map] at hit
  obtain ⟨tr, htr, rfl⟩ := hit
  simp only [triples] at htr
  have h1 := List.of_mem_zip htr
  have h2 := List.of_mem_zip h1.2
  have h3 : tr.2.1 ∈ ((topoReturns bars).zip (topoFlows bars)).zip bars :=
    List.mem_of_mem_tail h2.1
  exact (List.of_mem_zip h3).2

lemma topoReturns_length (bars : List Bar) : (topoReturns bars).length = bars.length := by
  cases bars with
  | nil => rfl
  | cons b bs =>
    simp [topoReturns, List.length_zip]

lemma topoItems_length (bars : List Bar) : (topoItems bars).length = bars.length - 2 := by
  simp [topoItems, triples, List.length_zip, topoReturns_length, topoFlows]
  omega

lemma length_filter_mono {α : Type} (l : List α) (p q : α → Bool)
    (h : ∀ a, p a = true → q a = true) :
    (l.filter p).length ≤ (l.filter q).length := by
  induction l with
  | nil => simp
  | cons a l ih =>
    simp only [List.filter_cons]
    by_cases hp : p a = true
    · rw [if_pos hp, if_pos (h a hp)]
      exact Nat.succ_le_succ ih
    · rw [if_neg hp]
      by_cases hq : q a = true
      · rw [if_pos hq]
        exact Nat.le_succ_of_le ih
      · rw [if_neg hq]
        exact ih

/-! ## Claim C4 -/

open Classical in
/-- C4.  On any window of at least 3 bars with non-negative volumes:
coherence is non-negative, every interior rotation has `|rot| ≤ 1 + 1e-9`,
every energy is non-negative, and the vortex count never exceeds the count of
interior indices whose composite score is at least 0.08. -/
theorem topology_invariants (bars : List Bar) (hN : 3 ≤ bars.length)
    (hvol : ∀ b ∈ bars, 0 ≤ b.volume) :
    0 ≤ (TopologyEngine.compute bars).coherence ∧
      (∀ r ∈ rotations bars, |r| ≤ 1 + 1/1000000000) ∧
      (∀ en ∈ energies bars, 0 ≤ en) ∧
      (TopologyEngine.compute bars).vortexes.length ≤
        ((List.range (compositeScores bars).length).filter fun j =>
            decide ((compositeScores bars).getD j 0 ≥ 8/100)).length := by
  have hrlen : (rotations bars).length = bars.length - 2 := by
    simp [rotations, topoItems_length]
  have hne : ¬ (rotations bars).isEmpty = true := by
    rw [List.isEmpty_iff]
    intro h
    rw [h] at hrlen
    simp at hrlen
    omega
  have hc : TopologyEngine.compute bars =
      { coherence := ((rotations bars).map fun r => |r|).sum / (rotations bars).length,
        energy := (energies bars).getLastD 0,
        vortexes := topologyVortexes bars } := by
    simp only [TopologyEngine.compute]
    rw [if_neg (not_lt.mpr hN), if_neg hne]
  refine ⟨?_, ?_, ?_, ?_⟩
  · rw [hc]
    exact div_nonneg
      (List.sum_nonneg fun x hx => by
        obtain ⟨y, -, rfl⟩ := List.mem_map.mp hx
        exact abs_nonneg _)
      (Nat.cast_nonneg _)
  · intro r hr
    obtain ⟨it, -, rfl⟩ := List.mem_map.mp hr
    exact abs_rotOf_le _ _
  · intro en hen
    obtain ⟨it, hit, rfl⟩ := List.mem_map.mp hen
    have : (0:ℝ) ≤ (it.bar.volume : ℝ) := by
      exact_mod_cast hvol _ (mem_topoItems_bar hit)
    exact mul_nonneg (abs_nonneg _) this
  · rw [hc]
    simp only [topologyVortexes, List.length_map]
    exact length_filter_mono _ _ _ fun a hp =>
      decide_eq_true (of_decide_eq_true hp).1

open Classical in
/-- Witness for `topology_invariants` on a three-bar flat window. -/
theorem topology_invariants_witness :
    (3 ≤ threeFlatBars.length ∧ ∀ b ∈ threeFlatBars, 0 ≤ b.volume) ∧
      (0 ≤ (TopologyEngine.compute threeFlatBars).coherence ∧
        (∀ r ∈ rotations threeFlatBars, |r| ≤ 1 + 1/1000000000) ∧
        (∀ en ∈ energies threeFlatBars, 0 ≤ en) ∧
        (TopologyEngine.compute threeFlatBars).vortexes.length ≤
          ((List.range (compositeScores threeFlatBars).length).filter fun j =>
              decide ((compositeScores threeFlatBars).getD j 0 ≥ 8/100)).length) :=
  ⟨⟨by decide, by decide⟩, topology_invariants threeFlatBars (by decide) (by decide)⟩

/-! ## Lemmas for the predictive engine -/

lemma simPath_zero (eps : Nat → ℝ) (H : Nat) (p : ℝ) :
    simPath 0 eps H p = List.replicate H p := by
  induction H generalizing eps p with
  | zero => rfl
  | succ H ih => simp [simPath, ih, List.replicate_succ]

lemma predPaths_zero (e : PredictiveEngine) (lp : ℝ) (eps : Nat → Nat → ℝ) :
    predPaths e 0 lp eps =
      List.replicate e.num_scenarios (List.replicate e.horizon_bars lp) := by
  simp [predPaths, simPath_zero, List.map_const']

lemma predSigma_zero_of (closes : List ℚ) (h : ∀ r ∈ predReturns closes, r = 0) :
    predSigma closes = 0 := by
  simp only [predSigma]
  split_ifs with he
  · rfl
  · have hsum : (predReturns closes).sum = 0 := List.sum_eq_zero h
    have hz : ((predReturns closes).map fun r =>
        (r - (predReturns closes).sum / ((predReturns closes).length : ℚ)) ^ 2).sum = 0 := by
      apply List.sum_eq_zero
      intro x hx
      obtain ⟨r, hr, rfl⟩ := List.mem_map.mp hx
      rw [h r hr, hsum]
      norm_num
    rw [hz]
    norm_num

lemma getD_replicate {α : Type} (n i : Nat) (c d : α) (h : i < n) :
    (List.replicate n c).getD i d = c := by
  simp [List.getD_eq_getElem?_getD, List.getElem?_replicate, h]

lemma getLastD_replicate {α : Type} (n : Nat) (c d : α) (h : n ≠ 0) :
    (List.replicate n c).getLastD d = c := by
  induction n generalizing d with
  | zero => omega
  | succ m ih =>
    rw [List.replicate_succ, List.getLastD_cons]
    cases m with
    | zero => rfl
    | succ k => exact ih c (Nat.succ_ne_zero k)

lemma coneStats_const (S H : Nat) (hS : S ≠ 0) (c : ℝ) :
    coneStats (List.replicate S (List.replicate H c)) H = List.replicate H (c, 0) := by
  simp only [coneStats]
  trans (List.range H).map fun _ => ((c : ℝ), (0 : ℝ))
  · apply List.map_congr_left
    intro h hh
    have hlt : h < H := List.mem_range.mp hh
    have hstep : (List.replicate S (List.replicate H c)).map (fun path => path.getD h 0) =
        List.replicate S c := by
      rw [List.map_replicate, getD_replicate _ _ _ _ hlt]
    have hSne : ((S : ℝ)) ≠ 0 := Nat.cast_ne_zero.mpr hS
    have hmean : (S : ℝ) * c / (S : ℝ) = c := by field_simp
    simp only [hstep, List.sum_replicate, List.length_replicate, nsmul_eq_mul,
      List.map_replicate, hmean]
    norm_num
  · rw [List.map_const', List.length_range]

lemma le_listMax {l : List ℚ} {x : ℚ} (hne : l ≠ []) (h : ∀ y ∈ l, x ≤ y) :
    x ≤ listMax l := by
  have haux : ∀ (as : List ℚ) (acc : ℚ), x ≤ acc → x ≤ as.foldl max acc := by
    intro as
    induction as with
    | nil => exact fun acc hacc => hacc
    | cons b bs ih =>
      intro acc hacc
      exact ih (max acc b) (le_max_of_le_left hacc)
  cases l with
  | nil => exact absurd rfl hne
  | cons a as => exact haux as a (h a (List.mem_cons_self a as))

lemma listMin_le {l : List ℚ} {x : ℚ} (hne : l ≠ []) (h : ∀ y ∈ l, y ≤ x) :
    listMin l ≤ x := by
  have haux : ∀ (as : List ℚ) (acc : ℚ), acc ≤ x → as.foldl min acc ≤ x := by
    intro as
    induction as with
    | nil => exact fun acc hacc => hacc
    | cons b bs ih =>
      intro acc hacc
      exact ih (min acc b) (min_le_of_left_le hacc)
  cases l with
  | nil => exact absurd rfl hne
  | cons a as => exact haux as a (h a (List.mem_cons_self a as))

lemma atrOf_pos (bars : List Bar) (hwf : ∀ b ∈ bars, b.low ≤ b.high) :
    0 < atrOf bars := by
  simp only [atrOf]
  split_ifs with h1 h2 h3
  · decide
  · exact absurd rfl h2
  · decide
  · refine lt_of_le_of_ne ?_ (Ne.symm h3)
    apply div_nonneg
    · apply List.sum_nonneg
      intro x hx
      obtain ⟨b, hb, rfl⟩ := List.mem_map.mp hx
      have := hwf b (List.mem_of_mem_drop hb)
      linarith
    · positivity

/-! ## Claim C5 -/

open Classical in
/-- C5.  On a window of at least two well-formed bars whose closes all equal
`c`, every return is zero, so σ = 0 and the cone collapses to the last close:
both cone bounds are constantly `c`, no path can cross the ATR-offset
breakout levels (`breakout_atr_mult > 0`), and every path finishes exactly at
the last close, so the collapse risk is 1 (`collapse_atr_mult ≥ 0`,
at least one scenario and one horizon step, as in every configuration). -/
theorem predictive_flat_window (e : PredictiveEngine) (bars : List Bar) (c : ℚ)
    (eps : Nat → Nat → ℝ)
    (hN : 2 ≤ bars.length)
    (hc : ∀ b ∈ bars, b.close = c)
    (hwf : ∀ b ∈ bars, b.low ≤ b.close ∧ b.close ≤ b.high)
    (hmult : 0 < e.breakout_atr_mult)
    (hcmult : 0 ≤ e.collapse_atr_mult)
    (hS : 1 ≤ e.num_scenarios)
    (hH : 1 ≤ e.horizon_bars) :
    (e.compute bars eps).cone_upper = List.replicate e.horizon_bars (c : ℝ) ∧
      (e.compute bars eps).cone_lower = List.replicate e.horizon_bars (c : ℝ) ∧
      (e.compute bars eps).breakout_probability_up = 0 ∧
      (e.compute bars eps).breakout_probability_down = 0 ∧
      (e.compute bars eps).energy_collapse_risk = 1 := by
  have hSne : e.num_scenarios ≠ 0 := by omega
  have hne2 : ¬ bars.length < 2 := not_lt.mpr hN
  have hcl : (bars.map fun b => b.close) = List.replicate bars.length c := by
    have h1 : ∀ x ∈ bars.map fun b => b.close, x = c := by
      intro x hx
      obtain ⟨b, hb, rfl⟩ := List.mem_map.mp hx
      exact hc b hb
    have h2 := List.eq_replicate_of_mem h1
    rwa [List.length_map] at h2
  have hret : ∀ r ∈ predReturns (bars.map fun b => b.close), r = 0 := by
    intro r hr
    simp only [predReturns, List.mem_map] at hr
    obtain ⟨pr, hpr, rfl⟩ := hr
    have h1 := List.of_mem_zip hpr
    have hp1 : pr.1 = c := by
      have := h1.1
      rw [hcl] at this
      exact List.eq_of_mem_replicate this
    have hp2 : pr.2 = c := by
      have := List.mem_of_mem_tail h1.2
      rw [hcl] at this
      exact List.eq_of_mem_replicate this
    rw [hp1, hp2]
    split_ifs with h
    · rfl
    · rw [sub_self, zero_div]
  have hsig : predSigma (bars.map fun b => b.close) = 0 := predSigma_zero_of _ hret
  have hlast : (bars.map fun b => b.close).getLastD 0 = c := by
    rw [hcl]
    exact getLastD_replicate _ _ _ (by omega)
  have hreclen : (bars.drop (bars.length - min 20 bars.length)).length = min 20 bars.length := by
    rw [List.length_drop]
    omega
  have hrecne : bars.drop (bars.length - min 20 bars.length) ≠ [] := by
    intro h
    rw [h] at hreclen
    simp at hreclen
    omega
  have hlohi : ∀ b ∈ bars, b.low ≤ b.high :=
    fun b hb => le_trans (hwf b hb).1 (hwf b hb).2
  have hatr : 0 < atrOf bars := atrOf_pos bars hlohi
  have hup : c < listMax ((bars.drop (bars.length - min 20 bars.length)).map fun b => b.high) +
      e.breakout_atr_mult * atrOf bars := by
    have h1 : c ≤ listMax ((bars.drop (bars.length - min 20 bars.length)).map fun b => b.high) := by
      apply le_listMax
      · intro h
        exact hrecne (List.map_eq_nil_iff.mp h)
      · intro y hy
        obtain ⟨b, hb, rfl⟩ := List.mem_map.mp hy
        have hb' := List.mem_of_mem_drop hb
        have h2 := (hwf b hb').2
        rwa [hc b hb'] at h2
    nlinarith [mul_pos hmult hatr]
  have hdown : listMin ((bars.drop (bars.length - min 20 bars.length)).map fun b => b.low) -
      e.breakout_atr_mult * atrOf bars < c := by
    have h1 : listMin ((bars.drop (bars.length - min 20 bars.length)).map fun b => b.low) ≤ c := by
      apply listMin_le
      · intro h
        exact hrecne (List.map_eq_nil_iff.mp h)
      · intro y hy
        obtain ⟨b, hb, rfl⟩ := List.mem_map.mp hy
        have hb' := List.mem_of_mem_drop hb
        have h2 := (hwf b hb').1
        rwa [hc b hb'] at h2
    nlinarith [mul_pos hmult hatr]
  have hband : (0:ℚ) ≤ e.collapse_atr_mult * atrOf bars := mul_nonneg hcmult hatr.le
  -- the simulated paths are constant
  have hpaths : predPaths e (predSigma (bars.map fun b => b.close))
      (((bars.map fun b => b.close).getLastD 0 : ℚ) : ℝ) eps =
      List.replicate e.num_scenarios (List.replicate e.horizon_bars ((c : ℚ) : ℝ)) := by
    rw [hsig, hlast, predPaths_zero]
  have hstats : coneStats (List.replicate e.num_scenarios
        (List.replicate e.horizon_bars ((c : ℚ) : ℝ))) e.horizon_bars =
      List.replicate e.horizon_bars (((c : ℚ) : ℝ), 0) :=
    coneStats_const _ _ hSne _
  refine ⟨?_, ?_, ?_, ?_, ?_⟩
  · simp only [PredictiveEngine.compute]
    rw [if_neg hne2]
    simp only [hpaths, hstats, List.map_replicate]
    norm_num
  · simp only [PredictiveEngine.compute]
    rw [if_neg hne2]
    simp only [hpaths, hstats, List.map_replicate]
    norm_num
  · simp only [PredictiveEngine.compute]
    rw [if_neg hne2]
    simp only [hpaths]
    rw [List.countP_eq_zero.mpr, Nat.cast_zero, zero_div]
    intro path hpath
    rw [List.eq_of_mem_replicate hpath]
    simp only [decide_eq_true_eq, not_exists]
    intro pp hpp
    obtain ⟨hmem, hge⟩ := hpp
    rw [List.eq_of_mem_replicate hmem] at hge
    have hcast : ((c:ℚ):ℝ) < (((listMax ((bars.drop (bars.length - min 20 bars.length)).map fun b =>
        b.high) + e.breakout_atr_mult * atrOf bars : ℚ)) : ℝ) := by
      exact_mod_cast hup
    linarith [hge]
  · simp only [PredictiveEngine.compute]
    rw [if_neg hne2]
    simp only [hpaths]
    rw [List.countP_eq_zero.mpr, Nat.cast_zero, zero_div]
    intro path hpath
    rw [List.eq_of_mem_replicate hpath]
    simp only [decide_eq_true_eq, not_exists]
    intro pp hpp
    obtain ⟨hmem, hle⟩ := hpp
    rw [List.eq_of_mem_replicate hmem] at hle
    have hcast : (((listMin ((bars.drop (bars.length - min 20 bars.length)).map fun b =>
        b.low) - e.breakout_atr_mult * atrOf bars : ℚ)) : ℝ) < ((c:ℚ):ℝ) := by
      exact_mod_cast hdown
    linarith [hle]
  · simp only [PredictiveEngine.compute]
    rw [if_neg hne2]
    simp only [hpaths]
    rw [List.countP_eq_length.mpr, List.length_replicate,
      div_self (by exact_mod_cast hSne : (e.num_scenarios : ℝ) ≠ 0)]
    intro path hpath
    rw [List.eq_of_mem_replicate hpath]
    rw [decide_eq_true_eq]
    rw [getLastD_replicate _ _ _ (by omega), hlast, sub_self, abs_zero]
    exact_mod_cast hband

open Classical in
/-- Witness for `predictive_flat_window` on a flat two-bar window with the
default engine. -/
theorem predictive_flat_window_witness :
    (2 ≤ twoFlatBars.length ∧ (∀ b ∈ twoFlatBars, b.close = 1) ∧
      (∀ b ∈ twoFlatBars, b.low ≤ b.close ∧ b.close ≤ b.high) ∧
      0 < ({} : PredictiveEngine).breakout_atr_mult ∧
      0 ≤ ({} : PredictiveEngine).collapse_atr_mult ∧
      1 ≤ ({} : PredictiveEngine).num_scenarios ∧
      1 ≤ ({} : PredictiveEngine).horizon_bars) ∧
    ((PredictiveEngine.compute {} twoFlatBars fun _ _ => 0).cone_upper =
        List.replicate ({} : PredictiveEngine).horizon_bars ((1 : ℚ) : ℝ) ∧
      (PredictiveEngine.compute {} twoFlatBars fun _ _ => 0).cone_lower =
        List.replicate ({} : PredictiveEngine).horizon_bars ((1 : ℚ) : ℝ) ∧
      (PredictiveEngine.compute {} twoFlatBars fun _ _ => 0).breakout_probability_up = 0 ∧
      (PredictiveEngine.compute {} twoFlatBars fun _ _ => 0).breakout_probability_down = 0 ∧
      (PredictiveEngine.compute {} twoFlatBars fun _ _ => 0).energy_collapse_risk = 1) :=
  ⟨⟨by decide, by decide, by decide, by decide, by decide, by decide, by decide⟩,
    predictive_flat_window {} twoFlatBars 1 (fun _ _ => 0) (by decide) (by decide) (by decide)
      (by decide) (by decide) (by decide) (by decide)⟩

/-! ## Claim C6 -/

/-- C6 (code bug).  `PredictiveEngine.compute` takes no RNG seed: it consumes
the ambient `random.gauss` stream, modelled as the explicit `eps` argument.
Two calls on the *same* window with different ambient streams return
different snapshots, so the output is not reproducible from the inputs the
method actually accepts. -/
theorem predictive_rng_dependence :
    PredictiveEngine.compute tinyEngine wiggleBars (fun _ _ => 0) ≠
      PredictiveEngine.compute tinyEngine wiggleBars (fun _ _ => 1) := by
  have hσ : predSigma (wiggleBars.map fun b => b.close) = Real.sqrt (((9 : ℚ)/8 : ℚ) : ℝ) := by
    norm_num [predSigma, predReturns, wiggleBars, List.zip, List.zipWith]
  have hσpos : 0 < predSigma (wiggleBars.map fun b => b.close) := by
    rw [hσ]
    exact Real.sqrt_pos.mpr (by norm_num)
  have hlast : (Option.map (fun b => b.close) wiggleBars.getLast?).getD 0 = (1 : ℚ) := by decide
  have h0 : (PredictiveEngine.compute tinyEngine wiggleBars fun _ _ => 0).cone_upper = [1] := by
    simp only [PredictiveEngine.compute]
    rw [if_neg (by decide)]
    simp [predPaths, simPath, coneStats, tinyEngine, hlast, List.range_succ]
  have h1 : (PredictiveEngine.compute tinyEngine wiggleBars fun _ _ => 1).cone_upper =
      [1 + predSigma (wiggleBars.map fun b => b.close)] := by
    simp only [PredictiveEngine.compute]
    rw [if_neg (by decide)]
    simp [predPaths, simPath, coneStats, tinyEngine, hlast, List.range_succ]
  intro h
  rw [h, h1] at h0
  have : 1 + predSigma (wiggleBars.map fun b => b.close) = 1 := List.head_eq_of_cons_eq h0
  linarith

end OIE
